import Mathlib

/-!
Verification development for the announcements relay server (server.js).

The JavaScript source is shallowly embedded below:
  - strings are Lean String (lists of chars); JavaScript falsiness of
    strings is modelled explicitly (empty string is falsy);
  - the on-disk mirror directory is an explicit FS value (list of
    name-content pairs); the global fetch is a parameter
    net : String -> Option (List Nat), where none models a network
    failure or a non-success response status (both throw in the code)
    and some body models a succeeding fetch with that body;
  - regular-expression replaces are implemented as left-to-right
    scanners, fuel-indexed by the input length so that they are
    structurally recursive and kernel-computable.
-/

namespace Srv

/-- Byte-list prefix test (used for String.startsWith-style checks and
as the literal-substring matcher of the scanners). -/
def isPre : List Char → List Char → Bool
  | [], _ => true
  | _ :: _, [] => false
  | a :: as, b :: bs => a == b && isPre as bs

/-- Substring presence test (regex without anchors), scanning every
position. -/
def hasSub (pat : List Char) : List Char → Bool
  | [] => false
  | c :: rest => isPre pat (c :: rest) || hasSub pat rest

/-- One regex-literal global replace, fuel-indexed scanner:
s.replace(needle-as-literal-regex, repl).  At each position, if the
needle matches, emit repl and continue after the match; otherwise emit
the character and move one position right.  Fuel = input length is
always sufficient: each step consumes at least one character. -/
def replaceSubF (needle repl : List Char) : Nat → List Char → List Char
  | _, [] => []
  | 0, l => l
  | n + 1, c :: rest =>
    if isPre needle (c :: rest) then
      repl ++ replaceSubF needle repl n (List.drop (needle.length - 1) rest)
    else
      c :: replaceSubF needle repl n rest

def replaceSub (needle repl l : List Char) : List Char :=
  replaceSubF needle repl l.length l

/-- Maximal run of ASCII digits at the front: (digits, remainder).
Implements the greedy \d+ of the mention regexes. -/
def takeDigits : List Char → List Char × List Char
  | [] => ([], [])
  | c :: rest =>
    if c.isDigit then
      let p := takeDigits rest
      (c :: p.1, p.2)
    else ([], c :: rest)

/-- Digits-then-closing-bracket tail of a mention-token match; acc is
the count of characters already consumed after the opening bracket. -/
def tokMatchDigits (acc : Nat) (r2 : List Char) : Option Nat :=
  if (takeDigits r2).1.isEmpty then none
  else if (takeDigits r2).2.head? == some '>' then
    some (acc + (takeDigits r2).1.length + 1)
  else none

/-- Optional-bang step of a mention-token match (only the user pattern
allows a bang after the at sign). -/
def tokMatchAfterPre (allowBang : Bool) (preLen : Nat) (r1 : List Char) : Option Nat :=
  if allowBang && (r1.head? == some '!') then
    tokMatchDigits (preLen + 1) (List.drop 1 r1)
  else
    tokMatchDigits preLen r1

/-- Match attempt for a mention token, given the characters after a
leading opening angle bracket: fixed characters pre, an optional bang
(only when allowBang, for the user pattern), one or more digits, then a
closing angle bracket.  Returns the number of characters consumed after
the opening bracket.  Greedy digits plus a required closing bracket is
equivalent to the regex with backtracking, because shortening the digit
run can never expose the closing bracket. -/
def tokMatchLen (pre : List Char) (allowBang : Bool) (rest : List Char) : Option Nat :=
  if isPre pre rest then
    tokMatchAfterPre allowBang pre.length (List.drop pre.length rest)
  else none

/-- Global replace of one mention-token pattern, fuel-indexed scanner. -/
def replaceTokF (pre : List Char) (allowBang : Bool) (repl : List Char) :
    Nat → List Char → List Char
  | _, [] => []
  | 0, l => l
  | n + 1, c :: rest =>
    if c == '<' then
      match tokMatchLen pre allowBang rest with
      | some k => repl ++ replaceTokF pre allowBang repl n (List.drop k rest)
      | none => c :: replaceTokF pre allowBang repl n rest
    else
      c :: replaceTokF pre allowBang repl n rest

def replaceTok (pre : List Char) (allowBang : Bool) (repl l : List Char) : List Char :=
  replaceTokF pre allowBang repl l.length l

/-- sanitizeContent (server.js line 91): unescape the literal escape
sequences for the angle brackets, then rewrite user, role and channel
mention tokens. -/
def sanitizeCore (l : List Char) : List Char :=
  replaceTok ['#'] false "#channel".data
    (replaceTok ['@', '&'] false "@role".data
      (replaceTok ['@'] true "@user".data
        (replaceSub "\\u003e".data ">".data
          (replaceSub "\\u003c".data "<".data l))))

def sanitizeContent (s : String) : String :=
  ⟨sanitizeCore s.data⟩

/-- Whitespace for the trim used on contents (ASCII part of the
JavaScript trim). -/
def isWS (c : Char) : Bool :=
  c == ' ' || c == '\t' || c == '\n' || c == '\r' || c == '\x0b' || c == '\x0c'

def trimL (l : List Char) : List Char :=
  ((l.dropWhile isWS).reverse.dropWhile isWS).reverse

def jsTrim (s : String) : String :=
  ⟨trimL s.data⟩

/-- JavaScript s1 or-else s2 on strings: the empty string is falsy. -/
def jsOr (s d : String) : String :=
  if s == "" then d else s

/-- Characters kept by safeFilename (the character class of the regex,
with the case-insensitive flag: ASCII letters, digits, dot, underscore,
hyphen). -/
def okChar (c : Char) : Bool :=
  c.isAlpha || c.isDigit || c == '.' || c == '_' || c == '-'

/-- Replace every maximal run of characters outside the class by a
single underscore (the first regex of safeFilename).  The flag records
whether we are inside such a run. -/
def collapseBadAux : Bool → List Char → List Char
  | _, [] => []
  | inRun, c :: rest =>
    if okChar c then c :: collapseBadAux false rest
    else if inRun then collapseBadAux true rest
    else '_' :: collapseBadAux true rest

/-- Strip the leading and the trailing underscore runs (the second
regex of safeFilename). -/
def stripUnd (l : List Char) : List Char :=
  ((l.dropWhile (fun c => c == '_')).reverse.dropWhile (fun c => c == '_')).reverse

/-- safeFilename (server.js line 61). -/
def safeFilename (name : String) : String :=
  ⟨(stripUnd (collapseBadAux false name.data)).take 180⟩

/-- url.split(slash).pop(): the segment after the last slash (the whole
string when there is none, empty on a trailing slash). -/
def lastSegL : List Char → List Char → List Char
  | acc, [] => acc.reverse
  | acc, c :: rest => if c == '/' then lastSegL [] rest else lastSegL (c :: acc) rest

def lastSeg (url : String) : String :=
  ⟨lastSegL [] url.data⟩

/-- On-disk mirror directory: a list of (local name, byte content)
pairs.  Existence of a file under a name is the sole is-mirrored
signal, exactly as in the code. -/
structure FS where
  files : List (String × List Nat)
deriving DecidableEq, Repr

def FS.existsFile (fs : FS) (nm : String) : Bool :=
  fs.files.any (fun p => p.1 == nm)

def FS.write (fs : FS) (nm : String) (content : List Nat) : FS :=
  ⟨(nm, content) :: fs.files⟩

/-- Outcome of one mirrorToLocal call: ref = some r is a normal return
of the reference r, ref = none is a thrown error; fs is the directory
afterwards; fetches counts the network fetches performed by the call. -/
structure MirrorOut where
  ref : Option String
  fs : FS
  fetches : Nat
deriving DecidableEq, Repr

/-- The base name chosen in mirrorToLocal (line 69):
safeFilename(filename or last url segment or a fixed fallback), with
JavaScript falsiness of the empty string. -/
def mirrorBaseName (url filename : String) : String :=
  safeFilename (jsOr filename (jsOr (lastSeg url) "download"))

/-- The deterministic local name (line 70): message id, a hyphen, the
base name. -/
def mirrorLocalName (url messageId filename : String) : String :=
  messageId ++ "-" ++ mirrorBaseName url filename

/-- mirrorToLocal (server.js line 68).  net models the global fetch:
none is a network failure or a non-success status (the code throws in
both cases), some body a successful fetch. -/
def mirrorToLocal (net : String → Option (List Nat)) (fs : FS)
    (url messageId filename : String) : MirrorOut :=
  let localName := mirrorLocalName url messageId filename
  if fs.existsFile localName then
    ⟨some ("/downloads/" ++ localName), fs, 0⟩
  else
    match net url with
    | none => ⟨none, fs, 1⟩
    | some body => ⟨some ("/downloads/" ++ localName), fs.write localName body, 1⟩

/-- Upstream attachment object; content_type and filename may be
absent.  An absent url is modelled by the empty string (both are falsy
and flow identically through the code). -/
structure Attachment where
  url : String
  content_type : Option String
  filename : Option String
deriving DecidableEq, Repr

/-- Upstream embed object, projected to the fields the code reads:
title, description, and the url fields of the video, image and
thumbnail sub-objects (none when the sub-object or its url is absent). -/
structure Embed where
  title : Option String
  description : Option String
  video : Option String
  image : Option String
  thumbnail : Option String
deriving DecidableEq, Repr

/-- Upstream message object, projected to the fields the code reads. -/
structure Message where
  id : String
  type : Option Nat
  content : Option String
  timestamp : Option String
  embeds : List Embed
  attachments : List Attachment
deriving DecidableEq, Repr

structure MediaItem where
  url : String
  type : String
  name : Option String
  contentType : Option String
deriving DecidableEq, Repr

/-- State of the media accumulator of getMediaFromMessage: the emitted
items and the set of urls already seen (dedup key = url, first
occurrence wins). -/
structure MediaAcc where
  out : List MediaItem
  seen : List String
deriving DecidableEq, Repr

/-- The add closure (line 130): skip a falsy or already-seen url,
otherwise push the item and record the url. -/
def MediaAcc.add (acc : MediaAcc) (url ty : String) (nm ct : Option String) : MediaAcc :=
  if url = "" ∨ url ∈ acc.seen then acc
  else ⟨acc.out ++ [⟨url, ty, nm, ct⟩], url :: acc.seen⟩

/-- JavaScript truthiness of an optional string. -/
def truthyS (o : Option String) : Bool :=
  !(o.getD "" == "")

def strStartsWith (p s : String) : Bool :=
  isPre p.data s.data

def lowerStr (s : String) : String :=
  ⟨s.data.map Char.toLower⟩

/-- Case-insensitive match of one extension alternative followed by a
question mark or the end of the input. -/
def extAfter : List Char → List Char → Bool
  | [], rest => rest.isEmpty || rest.head? == some '?'
  | _ :: _, [] => false
  | e :: es, c :: cs => (c.toLower == e) && extAfter es cs

/-- The dot-extension-boundary regex test: some position holds a dot,
one of the alternatives, then a question mark or the end. -/
def extTestL (exts : List (List Char)) : List Char → Bool
  | [] => false
  | c :: rest => (c == '.' && exts.any (fun e => extAfter e rest)) || extTestL exts rest

def imageExtTest (u : String) : Bool :=
  extTestL ["png".data, "jpg".data, "jpeg".data, "gif".data, "webp".data] u.data

def videoExtTest (u : String) : Bool :=
  extTestL ["mp4".data, "webm".data, "mov".data] u.data

/-- The anchored gif test of the attachment classifier (line 155). -/
def gifAnchorTest (u : String) : Bool :=
  extTestL ["gif".data] u.data

/-- The unanchored gif test of the embed classifier (line 177). -/
def gifAnywhere (u : String) : Bool :=
  hasSub ".gif".data (u.data.map Char.toLower)

/-- One iteration of the attachments loop of getMediaFromMessage
(line 137): mirror the attachment (fall back to the original url on a
thrown error), then classify and add. -/
def attachmentStep (net : String → Option (List Nat)) (mid : String)
    (p : MediaAcc × FS) (a : Attachment) : MediaAcc × FS :=
  let acc := p.1
  let fs := p.2
  let originalUrl := a.url
  let ct := lowerStr (a.content_type.getD "")
  let name := jsOr (a.filename.getD "") "download"
  let mr := mirrorToLocal net fs originalUrl mid name
  let localUrl := match mr.ref with
    | some u => u
    | none => originalUrl
  if strStartsWith "image/" ct = true ∨ imageExtTest originalUrl = true then
    let ty := if ct = "image/gif" ∨ gifAnchorTest originalUrl = true then "gif" else "image"
    (acc.add localUrl ty none none, mr.fs)
  else if strStartsWith "video/" ct = true ∨ videoExtTest originalUrl = true then
    (acc.add localUrl "video" none none, mr.fs)
  else
    (acc.add localUrl "file" (some name) (some ct), mr.fs)

/-- One iteration of the embeds loop of getMediaFromMessage (line 170):
a video url wins and suppresses the image; otherwise the image, else
the thumbnail, classified gif when the url contains a gif extension. -/
def embedStep (acc : MediaAcc) (e : Embed) : MediaAcc :=
  if truthyS e.video = true then acc.add (e.video.getD "") "video" none none
  else if truthyS e.image = true then
    let u := e.image.getD ""
    acc.add u (if gifAnywhere u = true then "gif" else "image") none none
  else if truthyS e.thumbnail = true then
    let u := e.thumbnail.getD ""
    acc.add u (if gifAnywhere u = true then "gif" else "image") none none
  else acc

/-- getMediaFromMessage (server.js line 126): the attachments loop
threads the mirror directory, then the embeds loop adds remote urls. -/
def getMediaFromMessage (net : String → Option (List Nat)) (fs : FS)
    (m : Message) : List MediaItem × FS :=
  let p := m.attachments.foldl (attachmentStep net m.id) (⟨[], []⟩, fs)
  let acc := m.embeds.foldl embedStep p.1
  (acc.out, p.2)

/-- Client-facing announcement record. -/
structure Announcement where
  id : String
  content : String
  timestamp : Option String
  media : List MediaItem
deriving DecidableEq, Repr

/-- The content fallback built from the first embed (line 242): title
plus a line break when the title is truthy, then the description. -/
def fallbackText (m : Message) : String :=
  match m.embeds.head? with
  | none => ""
  | some e =>
    (if truthyS e.title then e.title.getD "" ++ "\n" else "") ++ e.description.getD ""

/-- The raw content choice (line 245): the message content when it is
truthy and has a non-empty trim, otherwise the fallback. -/
def contentRaw (m : Message) : String :=
  let c := m.content.getD ""
  if jsTrim c == "" then fallbackText m else c

/-- One mapped announcement (line 248).  The media function abstracts
the per-message media gathering of the concurrent fan-out; every claim
about the handler is quantified over it, hence over every schedule. -/
def mkAnnouncement (media : Message → List MediaItem) (m : Message) : Announcement :=
  ⟨m.id, jsTrim (sanitizeContent (contentRaw m)), m.timestamp, media m⟩

/-- The message filter (line 234): plain text message, or at least one
embed, or at least one attachment. -/
def keepMsg (m : Message) : Bool :=
  m.type == some 0 || !m.embeds.isEmpty || !m.attachments.isEmpty

/-- The two configuration values, as read from the environment at
module scope (line 39); the code trims them on load. -/
structure Env where
  DISCORD_BOT_TOKEN : Option String
  DISCORD_CHANNEL_ID : Option String
deriving DecidableEq, Repr

inductive ReqEnv where
  | missingToken
  | missingChannel
  | ok
deriving DecidableEq, Repr

/-- requireEnv (server.js line 114): the token is checked first, then
the channel id; a trimmed-empty or absent value is missing. -/
def requireEnv (env : Env) : ReqEnv :=
  if !truthyS (env.DISCORD_BOT_TOKEN.map jsTrim) then .missingToken
  else if !truthyS (env.DISCORD_CHANNEL_ID.map jsTrim) then .missingChannel
  else .ok

/-- Parsed upstream body as the handler sees it: a JSON array of
messages, a JSON null (empty body), or any other JSON value. -/
inductive UpData where
  | arr (msgs : List Message)
  | nullData
  | other
deriving DecidableEq, Repr

/-- Result of discordFetchJson (line 100): ok mirrors the HTTP success
flag (false also for the non-JSON 502 case), status the code, data the
parsed body. -/
structure Upstream where
  ok : Bool
  status : Nat
  data : UpData
deriving DecidableEq, Repr

/-- Response of GET api slash announcements, projected to status plus
payload. -/
inductive AnnOut where
  | configError (status : Nat) (error : String)
  | upstreamError (status : Nat) (error : String)
  | success (status : Nat) (anns : List Announcement)
deriving DecidableEq, Repr

/-- The announcements handler (server.js line 215), up to and including
the final filter and truncation.  Returns the response together with
the number of upstream calls that were made. -/
def apiAnnouncements (env : Env) (up : Upstream)
    (media : Message → List MediaItem) : AnnOut × Nat :=
  match requireEnv env with
  | .missingToken => (.configError 500 "Missing DISCORD_BOT_TOKEN", 0)
  | .missingChannel => (.configError 500 "Missing DISCORD_CHANNEL_ID", 0)
  | .ok =>
    if !up.ok then (.upstreamError up.status "Discord API error", 1)
    else
      let messages := match up.data with
        | .arr l => l
        | _ => []
      let mapped := (messages.filter keepMsg).map (mkAnnouncement media)
      let cleaned :=
        (mapped.filter (fun a => a.content.length != 0 || a.media.length != 0)).take 8
      (.success 200 cleaned, 1)

/-! Scanner equations.  The fuel-indexed scanners are fuel-insensitive
as long as the fuel covers the input length, which yields the three
natural equations (empty input, skip, match) for each scanner. -/

lemma isPre_append_self (l r : List Char) : isPre l (l ++ r) = true := by
  induction l with
  | nil => rfl
  | cons a as ih => simp [isPre, ih]

lemma isPre_cons_false (a c : Char) (t l : List Char) (h : a ≠ c) :
    isPre (a :: t) (c :: l) = false := by
  simp [isPre, beq_eq_false_iff_ne.mpr h]

lemma replaceSubF_stable (needle repl : List Char) :
    ∀ n m l, l.length ≤ n → l.length ≤ m →
      replaceSubF needle repl n l = replaceSubF needle repl m l := by
  intro n
  induction n with
  | zero =>
    intro m l hn _
    have hl : l = [] := List.length_eq_zero.mp (Nat.le_zero.mp hn)
    subst hl
    cases m <;> rfl
  | succ n ih =>
    intro m l hn hm
    cases l with
    | nil => cases m <;> rfl
    | cons c rest =>
      cases m with
      | zero => simp at hm
      | succ m' =>
        have hn' : rest.length ≤ n := by simp at hn; omega
        have hm' : rest.length ≤ m' := by simp at hm; omega
        simp only [replaceSubF]
        by_cases h : isPre needle (c :: rest) = true
        · rw [if_pos h, if_pos h]
          have hd : (List.drop (needle.length - 1) rest).length ≤ rest.length := by
            rw [List.length_drop]; omega
          rw [ih m' (List.drop (needle.length - 1) rest) (le_trans hd hn') (le_trans hd hm')]
        · rw [if_neg h, if_neg h, ih m' rest hn' hm']

lemma replaceSub_nil (needle repl : List Char) : replaceSub needle repl [] = [] := rfl

lemma replaceSub_cons_skip (needle repl : List Char) (c : Char) (l : List Char)
    (h : isPre needle (c :: l) = false) :
    replaceSub needle repl (c :: l) = c :: replaceSub needle repl l := by
  show replaceSubF needle repl (c :: l).length (c :: l) = _
  rw [List.length_cons]
  simp only [replaceSubF]
  rw [if_neg (by simp [h])]
  rfl

lemma replaceSub_match (d : Char) (t repl rest : List Char) :
    replaceSub (d :: t) repl ((d :: t) ++ rest) = repl ++ replaceSub (d :: t) repl rest := by
  show replaceSubF (d :: t) repl ((d :: t) ++ rest).length ((d :: t) ++ rest) = _
  have hlen : ((d :: t) ++ rest).length = (t.length + rest.length) + 1 := by
    simp [List.length_append]
  rw [hlen, List.cons_append]
  simp only [replaceSubF]
  rw [if_pos (by simpa using isPre_append_self (d :: t) rest)]
  have h1 : (d :: t).length - 1 = t.length := by simp
  have h2 : List.drop t.length (t ++ rest) = rest := List.drop_left t rest
  rw [h1, h2]
  have h3 : rest.length ≤ t.length + rest.length := by omega
  rw [replaceSubF_stable (d :: t) repl (t.length + rest.length) rest.length rest h3 (le_refl _)]
  rfl

lemma replaceSub_append_no_head (h : Char) (t repl l₁ l₂ : List Char)
    (H : ∀ c ∈ l₁, c ≠ h) :
    replaceSub (h :: t) repl (l₁ ++ l₂) = l₁ ++ replaceSub (h :: t) repl l₂ := by
  induction l₁ with
  | nil => simp
  | cons c cs ih =>
    have hc : h ≠ c := fun he => (H c (by simp)) he.symm
    rw [List.cons_append, replaceSub_cons_skip _ _ _ _ (isPre_cons_false h c t _ hc)]
    rw [ih (fun x hx => H x (List.mem_cons_of_mem _ hx))]
    rfl

lemma replaceSub_id_no_head (h : Char) (t repl l : List Char)
    (H : ∀ c ∈ l, c ≠ h) :
    replaceSub (h :: t) repl l = l := by
  have h0 := replaceSub_append_no_head h t repl l [] H
  simpa [replaceSub_nil] using h0

lemma replaceTokF_stable (pre : List Char) (ab : Bool) (repl : List Char) :
    ∀ n m l, l.length ≤ n → l.length ≤ m →
      replaceTokF pre ab repl n l = replaceTokF pre ab repl m l := by
  intro n
  induction n with
  | zero =>
    intro m l hn _
    have hl : l = [] := List.length_eq_zero.mp (Nat.le_zero.mp hn)
    subst hl
    cases m <;> rfl
  | succ n ih =>
    intro m l hn hm
    cases l with
    | nil => cases m <;> rfl
    | cons c rest =>
      cases m with
      | zero => simp at hm
      | succ m' =>
        have hn' : rest.length ≤ n := by simp at hn; omega
        have hm' : rest.length ≤ m' := by simp at hm; omega
        simp only [replaceTokF]
        by_cases h : (c == '<') = true
        · rw [if_pos h, if_pos h]
          cases hk : tokMatchLen pre ab rest with
          | none =>
            show c :: replaceTokF pre ab repl n rest = c :: replaceTokF pre ab repl m' rest
            rw [ih m' rest hn' hm']
          | some k =>
            have hd : (List.drop k rest).length ≤ rest.length := by
              rw [List.length_drop]; omega
            show repl ++ replaceTokF pre ab repl n (List.drop k rest)
              = repl ++ replaceTokF pre ab repl m' (List.drop k rest)
            rw [ih m' (List.drop k rest) (le_trans hd hn') (le_trans hd hm')]
        · rw [if_neg h, if_neg h, ih m' rest hn' hm']

lemma replaceTok_nil (pre : List Char) (ab : Bool) (repl : List Char) :
    replaceTok pre ab repl [] = [] := rfl

lemma replaceTok_skip_ne (pre : List Char) (ab : Bool) (repl : List Char)
    (c : Char) (l : List Char) (h : c ≠ '<') :
    replaceTok pre ab repl (c :: l) = c :: replaceTok pre ab repl l := by
  show replaceTokF pre ab repl (c :: l).length (c :: l) = _
  rw [List.length_cons]
  simp only [replaceTokF]
  rw [if_neg (by simp [h])]
  rfl

lemma replaceTok_skip_none (pre : List Char) (ab : Bool) (repl : List Char)
    (l : List Char) (h : tokMatchLen pre ab l = none) :
    replaceTok pre ab repl ('<' :: l) = '<' :: replaceTok pre ab repl l := by
  show replaceTokF pre ab repl ('<' :: l).length ('<' :: l) = _
  rw [List.length_cons]
  simp only [replaceTokF]
  rw [if_pos (by simp), h]
  rfl

lemma replaceTok_match (pre : List Char) (ab : Bool) (repl : List Char)
    (rest : List Char) (k : Nat) (h : tokMatchLen pre ab rest = some k) :
    replaceTok pre ab repl ('<' :: rest)
      = repl ++ replaceTok pre ab repl (List.drop k rest) := by
  show replaceTokF pre ab repl ('<' :: rest).length ('<' :: rest) = _
  rw [List.length_cons]
  simp only [replaceTokF]
  rw [if_pos (by simp), h]
  have hd : (List.drop k rest).length ≤ rest.length := by
    rw [List.length_drop]; omega
  show repl ++ replaceTokF pre ab repl rest.length (List.drop k rest)
    = repl ++ replaceTok pre ab repl (List.drop k rest)
  rw [replaceTokF_stable pre ab repl rest.length (List.drop k rest).length
    (List.drop k rest) hd (le_refl _)]
  rfl

lemma replaceTok_append_no_lt (pre : List Char) (ab : Bool) (repl : List Char)
    (l₁ l₂ : List Char) (H : ∀ c ∈ l₁, c ≠ '<') :
    replaceTok pre ab repl (l₁ ++ l₂) = l₁ ++ replaceTok pre ab repl l₂ := by
  induction l₁ with
  | nil => simp
  | cons c cs ih =>
    rw [List.cons_append, replaceTok_skip_ne _ _ _ _ _ (H c (by simp))]
    rw [ih (fun x hx => H x (List.mem_cons_of_mem _ hx))]
    rfl

lemma replaceTok_id_no_lt (pre : List Char) (ab : Bool) (repl : List Char)
    (l : List Char) (H : ∀ c ∈ l, c ≠ '<') :
    replaceTok pre ab repl l = l := by
  have h0 := replaceTok_append_no_lt pre ab repl l [] H
  simpa [replaceTok_nil] using h0

lemma takeDigits_append (ds r : List Char)
    (h1 : ∀ c ∈ ds, c.isDigit = true)
    (h2 : ∀ c, r.head? = some c → c.isDigit = false) :
    takeDigits (ds ++ r) = (ds, r) := by
  induction ds with
  | nil =>
    cases r with
    | nil => rfl
    | cons c r' =>
      simp only [List.nil_append, takeDigits]
      rw [if_neg (by simp [h2 c rfl])]
  | cons d ds ih =>
    have hd : d.isDigit = true := h1 d (by simp)
    simp only [List.cons_append, takeDigits]
    rw [if_pos hd]
    simp only [List.append_eq]
    rw [ih (fun c hc => h1 c (List.mem_cons_of_mem _ hc))]

lemma tokMatchDigits_run (acc : Nat) (ds r : List Char)
    (h0 : ds ≠ []) (h1 : ∀ c ∈ ds, c.isDigit = true) :
    tokMatchDigits acc (ds ++ '>' :: r) = some (acc + ds.length + 1) := by
  have htd : takeDigits (ds ++ '>' :: r) = (ds, '>' :: r) :=
    takeDigits_append _ _ h1 (by intro c hc; cases hc; decide)
  unfold tokMatchDigits
  rw [htd]
  cases ds with
  | nil => exact absurd rfl h0
  | cons d ds' => simp

lemma tokMatchLen_digits (pre : List Char) (ab : Bool) (ds r : List Char)
    (h0 : ds ≠ []) (h1 : ∀ c ∈ ds, c.isDigit = true) :
    tokMatchLen pre ab (pre ++ (ds ++ '>' :: r)) = some (pre.length + ds.length + 1) := by
  unfold tokMatchLen
  rw [if_pos (isPre_append_self pre (ds ++ '>' :: r))]
  rw [List.drop_left pre (ds ++ '>' :: r)]
  cases ds with
  | nil => exact absurd rfl h0
  | cons d ds' =>
    have hd : d.isDigit = true := h1 d (by simp)
    have hne : (d == '!') = false := by
      apply beq_eq_false_iff_ne.mpr
      intro he
      rw [he] at hd
      simp at hd
    unfold tokMatchAfterPre
    rw [if_neg (by simp [hne])]
    exact tokMatchDigits_run pre.length (d :: ds') r (by simp) h1

lemma tokMatchLen_bang_digits (pre : List Char) (ds r : List Char)
    (h0 : ds ≠ []) (h1 : ∀ c ∈ ds, c.isDigit = true) :
    tokMatchLen pre true (pre ++ ('!' :: (ds ++ '>' :: r)))
      = some (pre.length + 1 + ds.length + 1) := by
  unfold tokMatchLen
  rw [if_pos (isPre_append_self pre ('!' :: (ds ++ '>' :: r)))]
  rw [List.drop_left pre ('!' :: (ds ++ '>' :: r))]
  unfold tokMatchAfterPre
  rw [if_pos (by simp)]
  simp only [List.drop_one, List.tail_cons]
  exact tokMatchDigits_run (pre.length + 1) ds r h0 h1

lemma ne_of_digit (c x : Char) (h : c.isDigit = true) (hx : x.isDigit = false) :
    c ≠ x := by
  intro he
  subst he
  rw [h] at hx
  cases hx

/-! Sanitizer pass computations on the escaped user-mention shape
backslash-u003c at-sign digits backslash-u003e, inside a context free of
opening angle brackets and backslashes. -/

lemma passLt_escaped (P S ds : List Char)
    (hp : ∀ c ∈ P, c ≠ '\\') (hs : ∀ c ∈ S, c ≠ '\\')
    (hds : ∀ c ∈ ds, c.isDigit = true) :
    replaceSub ['\\', 'u', '0', '0', '3', 'c'] ['<']
      (P ++ ('\\' :: 'u' :: '0' :: '0' :: '3' :: 'c' :: '@' ::
        (ds ++ ('\\' :: 'u' :: '0' :: '0' :: '3' :: 'e' :: S))))
    = P ++ ('<' :: '@' :: (ds ++ ('\\' :: 'u' :: '0' :: '0' :: '3' :: 'e' :: S))) := by
  rw [replaceSub_append_no_head '\\' ['u', '0', '0', '3', 'c'] ['<'] P _ hp]
  congr 1
  rw [show ('\\' :: 'u' :: '0' :: '0' :: '3' :: 'c' :: '@' ::
        (ds ++ ('\\' :: 'u' :: '0' :: '0' :: '3' :: 'e' :: S)))
      = (['\\', 'u', '0', '0', '3', 'c'] : List Char) ++
        ('@' :: (ds ++ ('\\' :: 'u' :: '0' :: '0' :: '3' :: 'e' :: S))) from rfl]
  rw [replaceSub_match '\\' ['u', '0', '0', '3', 'c'] ['<']
    ('@' :: (ds ++ ('\\' :: 'u' :: '0' :: '0' :: '3' :: 'e' :: S)))]
  rw [replaceSub_cons_skip _ _ '@' _ (isPre_cons_false '\\' '@' _ _ (by decide))]
  rw [replaceSub_append_no_head '\\' ['u', '0', '0', '3', 'c'] ['<'] ds _
    (fun c hc => ne_of_digit c '\\' (hds c hc) (by decide))]
  have hpre : isPre ['\\', 'u', '0', '0', '3', 'c']
      ('\\' :: 'u' :: '0' :: '0' :: '3' :: 'e' :: S) = false := by
    simp [isPre]
  rw [replaceSub_cons_skip _ _ '\\' _ hpre]
  rw [replaceSub_id_no_head '\\' ['u', '0', '0', '3', 'c'] ['<']
    ('u' :: '0' :: '0' :: '3' :: 'e' :: S) ?tail]
  · rfl
  case tail =>
    intro c hc
    simp only [List.mem_cons] at hc
    rcases hc with rfl | rfl | rfl | rfl | rfl | hc
    · decide
    · decide
    · decide
    · decide
    · decide
    · exact hs c hc

lemma passGt_escaped (P S ds : List Char)
    (hp : ∀ c ∈ P, c ≠ '\\') (hs : ∀ c ∈ S, c ≠ '\\')
    (hds : ∀ c ∈ ds, c.isDigit = true) :
    replaceSub ['\\', 'u', '0', '0', '3', 'e'] ['>']
      (P ++ ('<' :: '@' :: (ds ++ ('\\' :: 'u' :: '0' :: '0' :: '3' :: 'e' :: S))))
    = P ++ ('<' :: '@' :: (ds ++ ('>' :: S))) := by
  rw [replaceSub_append_no_head '\\' ['u', '0', '0', '3', 'e'] ['>'] P _ hp]
  congr 1
  rw [replaceSub_cons_skip _ _ '<' _ (isPre_cons_false '\\' '<' _ _ (by decide))]
  rw [replaceSub_cons_skip _ _ '@' _ (isPre_cons_false '\\' '@' _ _ (by decide))]
  rw [replaceSub_append_no_head '\\' ['u', '0', '0', '3', 'e'] ['>'] ds _
    (fun c hc => ne_of_digit c '\\' (hds c hc) (by decide))]
  rw [show ('\\' :: 'u' :: '0' :: '0' :: '3' :: 'e' :: S)
      = (['\\', 'u', '0', '0', '3', 'e'] : List Char) ++ S from rfl]
  rw [replaceSub_match '\\' ['u', '0', '0', '3', 'e'] ['>'] S]
  rw [replaceSub_id_no_head '\\' ['u', '0', '0', '3', 'e'] ['>'] S hs]
  rfl

lemma passUser_token (P S ds : List Char)
    (hp : ∀ c ∈ P, c ≠ '<') (hs : ∀ c ∈ S, c ≠ '<')
    (h0 : ds ≠ []) (hds : ∀ c ∈ ds, c.isDigit = true) :
    replaceTok ['@'] true "@user".data
      (P ++ ('<' :: '@' :: (ds ++ ('>' :: S))))
    = P ++ ("@user".data ++ S) := by
  rw [replaceTok_append_no_lt ['@'] true "@user".data P _ hp]
  congr 1
  have hm : tokMatchLen ['@'] true ('@' :: (ds ++ ('>' :: S)))
      = some (ds.length + 2) := by
    have h := tokMatchLen_digits ['@'] true ds S h0 hds
    simp only [List.singleton_append, List.length_singleton] at h
    rw [h]
    congr 1
    omega
  rw [replaceTok_match ['@'] true "@user".data _ _ hm]
  have hdrop : List.drop (ds.length + 2) ('@' :: (ds ++ ('>' :: S))) = S := by
    rw [show ('@' :: (ds ++ ('>' :: S))) = (('@' :: ds) ++ ['>']) ++ S by simp]
    rw [show ds.length + 2 = (('@' :: ds) ++ ['>']).length by simp]
    exact List.drop_left _ _
  rw [hdrop, replaceTok_id_no_lt ['@'] true "@user".data S hs]

lemma tokNone_amp (X : List Char) : tokMatchLen ['@'] true ('@' :: '&' :: X) = none := by
  unfold tokMatchLen
  rw [if_pos (by simp [isPre])]
  simp only [List.length_singleton, List.drop_succ_cons, List.drop_zero]
  unfold tokMatchAfterPre
  rw [if_neg (by simp)]
  unfold tokMatchDigits
  rw [show takeDigits ('&' :: X) = ([], '&' :: X) by
    unfold takeDigits; rw [if_neg (by decide)]]
  simp

lemma tokNone_hash_user (X : List Char) : tokMatchLen ['@'] true ('#' :: X) = none := by
  unfold tokMatchLen
  rw [if_neg (by simp [isPre])]

lemma tokNone_hash_role (X : List Char) : tokMatchLen ['@', '&'] false ('#' :: X) = none := by
  unfold tokMatchLen
  rw [if_neg (by simp [isPre])]

/-- Identity of the whole sanitizer on text free of opening angle
brackets and backslashes. -/
lemma sanitizeCore_id (l : List Char) (H : ∀ c ∈ l, c ≠ '<' ∧ c ≠ '\\') :
    sanitizeCore l = l := by
  unfold sanitizeCore
  rw [show ("\\u003c".data : List Char) = ['\\', 'u', '0', '0', '3', 'c'] from rfl]
  rw [show ("\\u003e".data : List Char) = ['\\', 'u', '0', '0', '3', 'e'] from rfl]
  rw [replaceSub_id_no_head '\\' ['u', '0', '0', '3', 'c'] _ l (fun c hc => (H c hc).2)]
  rw [replaceSub_id_no_head '\\' ['u', '0', '0', '3', 'e'] _ l (fun c hc => (H c hc).2)]
  rw [replaceTok_id_no_lt ['@'] true _ l (fun c hc => (H c hc).1)]
  rw [replaceTok_id_no_lt ['@', '&'] false _ l (fun c hc => (H c hc).1)]
  rw [replaceTok_id_no_lt ['#'] false _ l (fun c hc => (H c hc).1)]

lemma sanitize_plain_bang (ds : List Char) (h0 : ds ≠ [])
    (hds : ∀ c ∈ ds, c.isDigit = true) :
    sanitizeCore ('<' :: '@' :: '!' :: (ds ++ ['>'])) = "@user".data := by
  have hnb : ∀ c ∈ ('<' :: '@' :: '!' :: (ds ++ ['>'])), c ≠ '\\' := by
    intro c hc
    simp only [List.mem_cons, List.mem_append, List.mem_singleton, List.mem_nil_iff, or_false] at hc
    rcases hc with rfl | rfl | rfl | hc | rfl
    · decide
    · decide
    · decide
    · exact ne_of_digit c '\\' (hds c hc) (by decide)
    · decide
  have hnl : ∀ c ∈ ('@' :: '!' :: (ds ++ ['>'])), c ≠ '<' := by
    intro c hc
    simp only [List.mem_cons, List.mem_append, List.mem_singleton, List.mem_nil_iff, or_false] at hc
    rcases hc with rfl | rfl | hc | rfl
    · decide
    · decide
    · exact ne_of_digit c '<' (hds c hc) (by decide)
    · decide
  unfold sanitizeCore
  rw [show ("\\u003c".data : List Char) = ['\\', 'u', '0', '0', '3', 'c'] from rfl]
  rw [show ("\\u003e".data : List Char) = ['\\', 'u', '0', '0', '3', 'e'] from rfl]
  rw [replaceSub_id_no_head '\\' ['u', '0', '0', '3', 'c'] _ _ hnb]
  rw [replaceSub_id_no_head '\\' ['u', '0', '0', '3', 'e'] _ _ hnb]
  have hm : tokMatchLen ['@'] true ('@' :: '!' :: (ds ++ ['>']))
      = some (ds.length + 3) := by
    have h := tokMatchLen_bang_digits ['@'] ds [] h0 hds
    simp only [List.singleton_append, List.length_singleton] at h
    rw [show ('@' :: '!' :: (ds ++ ['>'])) = '@' :: '!' :: (ds ++ '>' :: []) from rfl, h]
    congr 1
    omega
  rw [replaceTok_match ['@'] true _ _ _ hm]
  have hdrop : List.drop (ds.length + 3) ('@' :: '!' :: (ds ++ ['>'])) = [] := by
    rw [show ds.length + 3 = ('@' :: '!' :: (ds ++ ['>'])).length by simp]
    exact List.drop_length _
  rw [hdrop, replaceTok_nil, List.append_nil]
  rw [replaceTok_id_no_lt ['@', '&'] false _ _ (by decide)]
  rw [replaceTok_id_no_lt ['#'] false _ _ (by decide)]

lemma sanitize_plain_role (ds : List Char) (h0 : ds ≠ [])
    (hds : ∀ c ∈ ds, c.isDigit = true) :
    sanitizeCore ('<' :: '@' :: '&' :: (ds ++ ['>'])) = "@role".data := by
  have hnb : ∀ c ∈ ('<' :: '@' :: '&' :: (ds ++ ['>'])), c ≠ '\\' := by
    intro c hc
    simp only [List.mem_cons, List.mem_append, List.mem_singleton, List.mem_nil_iff, or_false] at hc
    rcases hc with rfl | rfl | rfl | hc | rfl
    · decide
    · decide
    · decide
    · exact ne_of_digit c '\\' (hds c hc) (by decide)
    · decide
  have hnl : ∀ c ∈ ('@' :: '&' :: (ds ++ ['>'])), c ≠ '<' := by
    intro c hc
    simp only [List.mem_cons, List.mem_append, List.mem_singleton, List.mem_nil_iff, or_false] at hc
    rcases hc with rfl | rfl | hc | rfl
    · decide
    · decide
    · exact ne_of_digit c '<' (hds c hc) (by decide)
    · decide
  unfold sanitizeCore
  rw [show ("\\u003c".data : List Char) = ['\\', 'u', '0', '0', '3', 'c'] from rfl]
  rw [show ("\\u003e".data : List Char) = ['\\', 'u', '0', '0', '3', 'e'] from rfl]
  rw [replaceSub_id_no_head '\\' ['u', '0', '0', '3', 'c'] _ _ hnb]
  rw [replaceSub_id_no_head '\\' ['u', '0', '0', '3', 'e'] _ _ hnb]
  rw [replaceTok_skip_none ['@'] true _ _ (tokNone_amp (ds ++ ['>']))]
  rw [replaceTok_id_no_lt ['@'] true _ _ hnl]
  have hm : tokMatchLen ['@', '&'] false ('@' :: '&' :: (ds ++ ['>']))
      = some (ds.length + 3) := by
    have h := tokMatchLen_digits ['@', '&'] false ds [] h0 hds
    simp only [List.cons_append, List.nil_append, List.length_cons,
      List.length_nil] at h
    rw [show ('@' :: '&' :: (ds ++ ['>'])) = '@' :: '&' :: (ds ++ '>' :: []) from rfl, h]
    congr 1
    omega
  rw [replaceTok_match ['@', '&'] false _ _ _ hm]
  have hdrop : List.drop (ds.length + 3) ('@' :: '&' :: (ds ++ ['>'])) = [] := by
    rw [show ds.length + 3 = ('@' :: '&' :: (ds ++ ['>'])).length by simp]
    exact List.drop_length _
  rw [hdrop, replaceTok_nil, List.append_nil]
  rw [replaceTok_id_no_lt ['#'] false _ _ (by decide)]

lemma sanitize_plain_channel (ds : List Char) (h0 : ds ≠ [])
    (hds : ∀ c ∈ ds, c.isDigit = true) :
    sanitizeCore ('<' :: '#' :: (ds ++ ['>'])) = "#channel".data := by
  have hnb : ∀ c ∈ ('<' :: '#' :: (ds ++ ['>'])), c ≠ '\\' := by
    intro c hc
    simp only [List.mem_cons, List.mem_append, List.mem_singleton, List.mem_nil_iff, or_false] at hc
    rcases hc with rfl | rfl | hc | rfl
    · decide
    · decide
    · exact ne_of_digit c '\\' (hds c hc) (by decide)
    · decide
  have hnl : ∀ c ∈ ('#' :: (ds ++ ['>'])), c ≠ '<' := by
    intro c hc
    simp only [List.mem_cons, List.mem_append, List.mem_singleton, List.mem_nil_iff, or_false] at hc
    rcases hc with rfl | hc | rfl
    · decide
    · exact ne_of_digit c '<' (hds c hc) (by decide)
    · decide
  unfold sanitizeCore
  rw [show ("\\u003c".data : List Char) = ['\\', 'u', '0', '0', '3', 'c'] from rfl]
  rw [show ("\\u003e".data : List Char) = ['\\', 'u', '0', '0', '3', 'e'] from rfl]
  rw [replaceSub_id_no_head '\\' ['u', '0', '0', '3', 'c'] _ _ hnb]
  rw [replaceSub_id_no_head '\\' ['u', '0', '0', '3', 'e'] _ _ hnb]
  rw [replaceTok_skip_none ['@'] true _ _ (tokNone_hash_user (ds ++ ['>']))]
  rw [replaceTok_id_no_lt ['@'] true _ _ hnl]
  rw [replaceTok_skip_none ['@', '&'] false _ _ (tokNone_hash_role (ds ++ ['>']))]
  rw [replaceTok_id_no_lt ['@', '&'] false _ _ hnl]
  have hm : tokMatchLen ['#'] false ('#' :: (ds ++ ['>']))
      = some (ds.length + 2) := by
    have h := tokMatchLen_digits ['#'] false ds [] h0 hds
    simp only [List.singleton_append, List.length_singleton] at h
    rw [show ('#' :: (ds ++ ['>'])) = '#' :: (ds ++ '>' :: []) from rfl, h]
    congr 1
    omega
  rw [replaceTok_match ['#'] false _ _ _ hm]
  have hdrop : List.drop (ds.length + 2) ('#' :: (ds ++ ['>'])) = [] := by
    rw [show ds.length + 2 = ('#' :: (ds ++ ['>'])).length by simp]
    exact List.drop_length _
  rw [hdrop, replaceTok_nil, List.append_nil]

/-! Helper facts about strings, the file store and the mirror. -/

lemma str_ext (a b : String) (h : a.data = b.data) : a = b := by
  cases a
  cases b
  simp_all

lemma FS.existsFile_write_self (fs : FS) (nm : String) (content : List Nat) :
    (fs.write nm content).existsFile nm = true := by
  simp [FS.existsFile, FS.write]

lemma mirror_ref_shape (net : String → Option (List Nat)) (fs : FS)
    (url mid fn r : String)
    (h : (mirrorToLocal net fs url mid fn).ref = some r) :
    r = "/downloads/" ++ mirrorLocalName url mid fn := by
  unfold mirrorToLocal at h
  by_cases he : fs.existsFile (mirrorLocalName url mid fn) = true
  · simp [he] at h
    exact h.symm
  · simp [he] at h
    cases hnet : net url with
    | none => rw [hnet] at h; simp at h
    | some body => rw [hnet] at h; simp at h; exact h.symm

lemma mirror_none_fs (net : String → Option (List Nat)) (fs : FS)
    (url mid fn : String)
    (h : (mirrorToLocal net fs url mid fn).ref = none) :
    (mirrorToLocal net fs url mid fn).fs = fs := by
  unfold mirrorToLocal at h ⊢
  by_cases he : fs.existsFile (mirrorLocalName url mid fn) = true
  · simp [he]
  · simp [he] at h ⊢
    cases hnet : net url with
    | none => simp [hnet]
    | some body => rw [hnet] at h; simp at h

/-- C1: for every attachment identified by (messageId, filename), mirror
is idempotent: if a call returns the reference r, then a second call on
the resulting directory returns the same r, performs no network fetch,
and leaves the directory unchanged, because the file already exists at
the computed local name. -/
theorem c1_mirror_idempotent (net : String → Option (List Nat)) (fs : FS)
    (url mid fn r : String)
    (h : (mirrorToLocal net fs url mid fn).ref = some r) :
    (mirrorToLocal net (mirrorToLocal net fs url mid fn).fs url mid fn).ref = some r
    ∧ (mirrorToLocal net (mirrorToLocal net fs url mid fn).fs url mid fn).fetches = 0
    ∧ (mirrorToLocal net (mirrorToLocal net fs url mid fn).fs url mid fn).fs
        = (mirrorToLocal net fs url mid fn).fs
    ∧ (mirrorToLocal net fs url mid fn).fs.existsFile (mirrorLocalName url mid fn) = true := by
  by_cases he : fs.existsFile (mirrorLocalName url mid fn) = true
  · have h1 : mirrorToLocal net fs url mid fn
        = ⟨some ("/downloads/" ++ mirrorLocalName url mid fn), fs, 0⟩ := by
      unfold mirrorToLocal
      rw [if_pos he]
    rw [h1] at h
    refine ⟨?_, ?_, ?_, ?_⟩ <;> simp_all [mirrorToLocal, he]
  · cases hnet : net url with
    | none =>
      have h1 : mirrorToLocal net fs url mid fn = ⟨none, fs, 1⟩ := by
        unfold mirrorToLocal
        rw [if_neg he, hnet]
      rw [h1] at h
      simp at h
    | some body =>
      have h1 : mirrorToLocal net fs url mid fn
          = ⟨some ("/downloads/" ++ mirrorLocalName url mid fn),
              fs.write (mirrorLocalName url mid fn) body, 1⟩ := by
        unfold mirrorToLocal
        rw [if_neg he, hnet]
      have hex : (fs.write (mirrorLocalName url mid fn) body).existsFile
          (mirrorLocalName url mid fn) = true :=
        FS.existsFile_write_self fs _ body
      rw [h1] at h
      refine ⟨?_, ?_, ?_, ?_⟩ <;> simp_all [mirrorToLocal, hex]

/-- C1 witness: a concrete first call that freshly mirrors a file, on
which idempotence of the second call is obtained from the theorem. -/
theorem c1_witness :
    (mirrorToLocal (fun _ => some [7]) ⟨[]⟩ "http://x/f.png" "99" "f.png").ref
        = some "/downloads/99-f.png"
    ∧ ((mirrorToLocal (fun _ => some [7])
          (mirrorToLocal (fun _ => some [7]) ⟨[]⟩ "http://x/f.png" "99" "f.png").fs
          "http://x/f.png" "99" "f.png").ref = some "/downloads/99-f.png"
      ∧ (mirrorToLocal (fun _ => some [7])
          (mirrorToLocal (fun _ => some [7]) ⟨[]⟩ "http://x/f.png" "99" "f.png").fs
          "http://x/f.png" "99" "f.png").fetches = 0
      ∧ (mirrorToLocal (fun _ => some [7])
          (mirrorToLocal (fun _ => some [7]) ⟨[]⟩ "http://x/f.png" "99" "f.png").fs
          "http://x/f.png" "99" "f.png").fs
          = (mirrorToLocal (fun _ => some [7]) ⟨[]⟩ "http://x/f.png" "99" "f.png").fs
      ∧ (mirrorToLocal (fun _ => some [7]) ⟨[]⟩ "http://x/f.png" "99" "f.png").fs.existsFile
          (mirrorLocalName "http://x/f.png" "99" "f.png") = true) :=
  ⟨by decide,
    c1_mirror_idempotent (fun _ => some [7]) ⟨[]⟩ "http://x/f.png" "99" "f.png"
      "/downloads/99-f.png" (by decide)⟩

/-! safeFilename output shape. -/

lemma collapseBadAux_ok (l : List Char) :
    ∀ (b : Bool), ∀ c ∈ collapseBadAux b l, okChar c = true := by
  induction l with
  | nil => intro b c hc; simp [collapseBadAux] at hc
  | cons x xs ih =>
    intro b c hc
    unfold collapseBadAux at hc
    by_cases hx : okChar x = true
    · rw [if_pos hx] at hc
      rcases List.mem_cons.mp hc with rfl | hc
      · exact hx
      · exact ih false c hc
    · rw [if_neg hx] at hc
      cases b with
      | true =>
        rw [if_pos rfl] at hc
        exact ih true c hc
      | false =>
        rw [if_neg (by simp)] at hc
        rcases List.mem_cons.mp hc with rfl | hc
        · decide
        · exact ih true c hc

lemma stripUnd_subset (l : List Char) : stripUnd l ⊆ l := by
  intro c hc
  unfold stripUnd at hc
  rw [List.mem_reverse] at hc
  have hc1 := (List.dropWhile_sublist (fun c => c == '_')
    (l := (l.dropWhile (fun c => c == '_')).reverse)).mem hc
  rw [List.mem_reverse] at hc1
  exact (List.dropWhile_sublist (fun c => c == '_') (l := l)).mem hc1

lemma safeFilename_chars (name : String) :
    ∀ c ∈ (safeFilename name).data, okChar c = true := by
  intro c hc
  have hc1 : c ∈ stripUnd (collapseBadAux false name.data) :=
    List.take_subset 180 _ hc
  exact collapseBadAux_ok name.data false c (stripUnd_subset _ hc1)

lemma safeFilename_len (name : String) : (safeFilename name).length ≤ 180 := by
  show ((stripUnd (collapseBadAux false name.data)).take 180).length ≤ 180
  exact List.length_take_le 180 _

lemma okChar_ne_slash (c : Char) (h : okChar c = true) : c ≠ '/' := by
  intro he
  subst he
  exact absurd h (by decide)

/-- C10: when the message id holds no path separator, every reference
returned by the mirror (on the short-circuit as well as on a fresh
write) is the downloads prefix, the message id, a hyphen, and a
sanitized name over the safe character class of length at most 180; the
part after the downloads prefix has no separator, so the mirrored file
lands directly in the mirror directory. -/
theorem c10_local_ref_shape (net : String → Option (List Nat)) (fs : FS)
    (url mid fn r : String)
    (hmid : '/' ∉ mid.data)
    (h : (mirrorToLocal net fs url mid fn).ref = some r) :
    r = "/downloads/" ++ (mid ++ "-" ++ mirrorBaseName url fn)
    ∧ (∀ c ∈ (mirrorBaseName url fn).data, okChar c = true)
    ∧ (mirrorBaseName url fn).length ≤ 180
    ∧ '/' ∉ (mid ++ "-" ++ mirrorBaseName url fn).data := by
  refine ⟨mirror_ref_shape net fs url mid fn r h, safeFilename_chars _, safeFilename_len _, ?_⟩
  intro hmem
  rw [show (mid ++ "-" ++ mirrorBaseName url fn).data
      = mid.data ++ ('-' :: (mirrorBaseName url fn).data) by
    rw [String.data_append, String.data_append]
    simp] at hmem
  rcases List.mem_append.mp hmem with hm | hm
  · exact hmid hm
  · rcases List.mem_cons.mp hm with he | hm
    · cases he
    · exact okChar_ne_slash '/' (safeFilename_chars _ '/' hm) rfl

/-- C10 witness: a concrete fresh mirror whose reference has the stated
shape. -/
theorem c10_witness :
    ('/' ∉ ("99" : String).data
      ∧ (mirrorToLocal (fun _ => some [7]) ⟨[]⟩ "http://x/f.png" "99" "f.png").ref
          = some "/downloads/99-f.png")
    ∧ ("/downloads/99-f.png" : String)
        = "/downloads/" ++ ("99" ++ "-" ++ mirrorBaseName "http://x/f.png" "f.png")
    ∧ (∀ c ∈ (mirrorBaseName "http://x/f.png" "f.png").data, okChar c = true)
    ∧ (mirrorBaseName "http://x/f.png" "f.png").length ≤ 180
    ∧ '/' ∉ (("99" : String) ++ "-" ++ mirrorBaseName "http://x/f.png" "f.png").data :=
  ⟨⟨by decide, by decide⟩,
    c10_local_ref_shape (fun _ => some [7]) ⟨[]⟩ "http://x/f.png" "99" "f.png"
      "/downloads/99-f.png" (by decide) (by decide)⟩

/-! C8: collision-freedom of the computed local name. -/

lemma hyphen_append_inj (a : List Char) :
    ∀ (b r₁ r₂ : List Char), '-' ∉ a → '-' ∉ b →
      a ++ '-' :: r₁ = b ++ '-' :: r₂ → a = b := by
  induction a with
  | nil =>
    intro b r₁ r₂ _ hb h
    cases b with
    | nil => rfl
    | cons y ys =>
      simp only [List.nil_append, List.cons_append, List.cons.injEq] at h
      exact absurd (h.1 ▸ List.mem_cons_self y ys) hb
  | cons x xs ih =>
    intro b r₁ r₂ ha hb h
    cases b with
    | nil =>
      simp only [List.cons_append, List.nil_append, List.cons.injEq] at h
      exact absurd (h.1 ▸ List.mem_cons_self x xs) ha
    | cons y ys =>
      simp only [List.cons_append, List.cons.injEq] at h
      rw [h.1, ih ys r₁ r₂ (fun hm => ha (List.mem_cons_of_mem x hm))
        (fun hm => hb (List.mem_cons_of_mem y hm)) h.2]

lemma mirrorLocalName_data (url mid fn : String) :
    (mirrorLocalName url mid fn).data
      = mid.data ++ ('-' :: (mirrorBaseName url fn).data) := by
  show (mid ++ "-" ++ mirrorBaseName url fn).data = _
  rw [String.data_append, String.data_append]
  simp

/-- C8 counterexample: two attachments on distinct message ids whose
computed local names coincide (a message id containing a hyphen makes
id and filename boundaries ambiguous). -/
theorem c8_counterexample :
    mirrorLocalName "u" "1" "2-a.png" = mirrorLocalName "u" "1-2" "a.png"
    ∧ ("1" : String) ≠ "1-2" := by
  constructor
  · decide
  · decide

/-- C8 (amended): the computed local name is collision-free across
messages whose ids contain no hyphen (as the numeric upstream message
ids do): distinct hyphen-free message ids give distinct local names,
for every pair of filenames, identical ones included. -/
theorem c8_local_name_collision_free (u₁ u₂ mid₁ mid₂ f₁ f₂ : String)
    (hne : mid₁ ≠ mid₂) (h₁ : '-' ∉ mid₁.data) (h₂ : '-' ∉ mid₂.data) :
    mirrorLocalName u₁ mid₁ f₁ ≠ mirrorLocalName u₂ mid₂ f₂ := by
  intro he
  apply hne
  have hd : (mirrorLocalName u₁ mid₁ f₁).data = (mirrorLocalName u₂ mid₂ f₂).data := by
    rw [he]
  rw [mirrorLocalName_data, mirrorLocalName_data] at hd
  exact str_ext mid₁ mid₂ (hyphen_append_inj mid₁.data mid₂.data _ _ h₁ h₂ hd)

/-- C8 witness: the amended statement at two concrete hyphen-free
message ids carrying the same filename. -/
theorem c8_witness :
    (("1" : String) ≠ "2" ∧ '-' ∉ ("1" : String).data ∧ '-' ∉ ("2" : String).data)
    ∧ mirrorLocalName "u" "1" "a.png" ≠ mirrorLocalName "u" "2" "a.png" :=
  ⟨⟨by decide, by decide, by decide⟩,
    c8_local_name_collision_free "u" "u" "1" "2" "a.png" "a.png"
      (by decide) (by decide) (by decide)⟩

/-! Handler claims. -/

/-- C3: with the bot credential or the channel identifier absent, the
announcements endpoint answers a 500 configuration error whose error
field names a missing configuration item, and performs no upstream
call. -/
theorem c3_config_error (env : Env) (up : Upstream)
    (media : Message → List MediaItem)
    (h : env.DISCORD_BOT_TOKEN = none ∨ env.DISCORD_CHANNEL_ID = none) :
    ∃ msg, apiAnnouncements env up media = (.configError 500 msg, 0)
      ∧ ((msg = "Missing DISCORD_BOT_TOKEN"
            ∧ truthyS (env.DISCORD_BOT_TOKEN.map jsTrim) = false)
        ∨ (msg = "Missing DISCORD_CHANNEL_ID"
            ∧ truthyS (env.DISCORD_CHANNEL_ID.map jsTrim) = false)) := by
  cases htok : truthyS (env.DISCORD_BOT_TOKEN.map jsTrim) with
  | false =>
    refine ⟨"Missing DISCORD_BOT_TOKEN", ?_, Or.inl ⟨rfl, rfl⟩⟩
    simp [apiAnnouncements, requireEnv, htok]
  | true =>
    have hch : env.DISCORD_CHANNEL_ID = none := by
      rcases h with h | h
      · rw [h] at htok
        simp [truthyS] at htok
      · exact h
    have hchf : truthyS (env.DISCORD_CHANNEL_ID.map jsTrim) = false := by
      rw [hch]
      rfl
    refine ⟨"Missing DISCORD_CHANNEL_ID", ?_, Or.inr ⟨rfl, hchf⟩⟩
    simp [apiAnnouncements, requireEnv, htok, hchf]

/-- C3 witness: a concrete environment with the channel identifier
absent. -/
theorem c3_witness :
    ((⟨some "tok", none⟩ : Env).DISCORD_BOT_TOKEN = none
      ∨ (⟨some "tok", none⟩ : Env).DISCORD_CHANNEL_ID = none)
    ∧ ∃ msg, apiAnnouncements ⟨some "tok", none⟩ ⟨true, 200, .other⟩ (fun _ => [])
          = (.configError 500 msg, 0)
        ∧ ((msg = "Missing DISCORD_BOT_TOKEN"
              ∧ truthyS ((⟨some "tok", none⟩ : Env).DISCORD_BOT_TOKEN.map jsTrim) = false)
          ∨ (msg = "Missing DISCORD_CHANNEL_ID"
              ∧ truthyS ((⟨some "tok", none⟩ : Env).DISCORD_CHANNEL_ID.map jsTrim) = false)) :=
  ⟨Or.inr rfl,
    c3_config_error ⟨some "tok", none⟩ ⟨true, 200, .other⟩ (fun _ => []) (Or.inr rfl)⟩

/-- C9: an upstream success whose parsed body is not an array (a JSON
null from an empty body included) yields a 200 with an empty
announcements array. -/
theorem c9_non_array_empty (env : Env) (up : Upstream)
    (media : Message → List MediaItem)
    (h1 : requireEnv env = .ok) (h2 : up.ok = true)
    (h3 : up.data = .nullData ∨ up.data = .other) :
    apiAnnouncements env up media = (.success 200 [], 1) := by
  rcases h3 with h3 | h3 <;> simp [apiAnnouncements, h1, h2, h3]

/-- C9 witness: a concrete request whose upstream body parsed to a JSON
null. -/
theorem c9_witness :
    (requireEnv ⟨some "tok", some "chan"⟩ = .ok
      ∧ (⟨true, 200, .nullData⟩ : Upstream).ok = true
      ∧ ((⟨true, 200, .nullData⟩ : Upstream).data = .nullData
        ∨ (⟨true, 200, .nullData⟩ : Upstream).data = .other))
    ∧ apiAnnouncements ⟨some "tok", some "chan"⟩ ⟨true, 200, .nullData⟩ (fun _ => [])
        = (.success 200 [], 1) :=
  ⟨⟨by decide, rfl, Or.inl rfl⟩,
    c9_non_array_empty ⟨some "tok", some "chan"⟩ ⟨true, 200, .nullData⟩ (fun _ => [])
      (by decide) rfl (Or.inl rfl)⟩

/-- The final-filter predicate of the code (content length positive or
media length positive) agrees pointwise with the emptiness test of the
specification (not both content empty and media empty). -/
lemma annPred_eq (a : Announcement) :
    (a.content.length != 0 || a.media.length != 0)
      = !(a.content == "" && a.media.isEmpty) := by
  by_cases hc : a.content = ""
  · rw [hc]
    cases a.media with
    | nil => decide
    | cons y ys => simp
  · have hcb : (a.content == "") = false := beq_eq_false_iff_ne.mpr hc
    have hlen : a.content.length ≠ 0 := by
      intro h0
      apply hc
      apply str_ext
      have hdata : a.content.data = [] := List.length_eq_zero.mp h0
      simp [hdata]
    simp [hcb, hlen]

/-- C4: the endpoint result is exactly the candidate list with the
announcements that are empty in both content and media dropped, then
truncated to the first eight in upstream order; with twenty qualifying
messages all mapping to non-empty announcements, exactly eight come
back, the first eight in order. -/
theorem c4_filter_truncate (env : Env) (up : Upstream)
    (media : Message → List MediaItem) (msgs : List Message)
    (h1 : requireEnv env = .ok) (h2 : up.ok = true) (h3 : up.data = .arr msgs) :
    (apiAnnouncements env up media).1
      = .success 200 ((((msgs.filter keepMsg).map (mkAnnouncement media)).filter
          (fun a => !(a.content == "" && a.media.isEmpty))).take 8)
    ∧ ((∀ m ∈ msgs, keepMsg m = true) → msgs.length = 20 →
        (∀ a ∈ (msgs.filter keepMsg).map (mkAnnouncement media),
          ¬(a.content = "" ∧ a.media = [])) →
        ∃ anns, (apiAnnouncements env up media).1 = .success 200 anns
          ∧ anns.length = 8
          ∧ anns = ((msgs.filter keepMsg).map (mkAnnouncement media)).take 8) := by
  have hmain : (apiAnnouncements env up media).1
      = .success 200 ((((msgs.filter keepMsg).map (mkAnnouncement media)).filter
          (fun a => a.content.length != 0 || a.media.length != 0)).take 8) := by
    simp [apiAnnouncements, h1, h2, h3]
  have hfc : ((msgs.filter keepMsg).map (mkAnnouncement media)).filter
        (fun a => a.content.length != 0 || a.media.length != 0)
      = ((msgs.filter keepMsg).map (mkAnnouncement media)).filter
        (fun a => !(a.content == "" && a.media.isEmpty)) :=
    List.filter_congr (fun a _ => annPred_eq a)
  refine ⟨by rw [hmain, hfc], ?_⟩
  intro hall hlen hne
  have hsat : ∀ a ∈ (msgs.filter keepMsg).map (mkAnnouncement media),
      (a.content.length != 0 || a.media.length != 0) = true := by
    intro a ha
    have hn := hne a ha
    by_cases hc : a.content = ""
    · have hm : a.media ≠ [] := fun hm => hn ⟨hc, hm⟩
      have : a.media.length ≠ 0 := fun h0 => hm (List.length_eq_zero.mp h0)
      simp [this]
    · have : a.content.length ≠ 0 := by
        intro h0
        exact hc (str_ext _ _ (by simp [List.length_eq_zero.mp h0]))
      simp [this]
  have hfilter : ((msgs.filter keepMsg).map (mkAnnouncement media)).filter
        (fun a => a.content.length != 0 || a.media.length != 0)
      = (msgs.filter keepMsg).map (mkAnnouncement media) :=
    List.filter_eq_self.mpr hsat
  have hkeep : msgs.filter keepMsg = msgs := List.filter_eq_self.mpr hall
  refine ⟨((msgs.filter keepMsg).map (mkAnnouncement media)).take 8,
    by rw [hmain, hfilter], ?_, rfl⟩
  rw [List.length_take, List.length_map, hkeep, hlen]
  decide

/-- C4 witness: twenty qualifying messages, each carrying one media
item, through a concrete environment and upstream response. -/
theorem c4_witness :
    (requireEnv ⟨some "tok", some "chan"⟩ = .ok
      ∧ (⟨true, 200,
            .arr (List.replicate 20 ⟨"m", some 0, none, none, [], []⟩)⟩ : Upstream).ok = true
      ∧ (∀ m ∈ List.replicate 20 (⟨"m", some 0, none, none, [], []⟩ : Message),
          keepMsg m = true)
      ∧ (List.replicate 20 (⟨"m", some 0, none, none, [], []⟩ : Message)).length = 20
      ∧ (∀ a ∈ ((List.replicate 20 (⟨"m", some 0, none, none, [], []⟩ : Message)).filter
            keepMsg).map (mkAnnouncement (fun _ => [⟨"u", "image", none, none⟩])),
          ¬(a.content = "" ∧ a.media = [])))
    ∧ ∃ anns,
        (apiAnnouncements ⟨some "tok", some "chan"⟩
            ⟨true, 200, .arr (List.replicate 20 ⟨"m", some 0, none, none, [], []⟩)⟩
            (fun _ => [⟨"u", "image", none, none⟩])).1 = .success 200 anns
        ∧ anns.length = 8
        ∧ anns = (((List.replicate 20 (⟨"m", some 0, none, none, [], []⟩ : Message)).filter
            keepMsg).map (mkAnnouncement (fun _ => [⟨"u", "image", none, none⟩]))).take 8 :=
  ⟨⟨by decide, rfl, by decide, by decide, by decide⟩,
    (c4_filter_truncate ⟨some "tok", some "chan"⟩
        ⟨true, 200, .arr (List.replicate 20 ⟨"m", some 0, none, none, [], []⟩)⟩
        (fun _ => [⟨"u", "image", none, none⟩])
        (List.replicate 20 ⟨"m", some 0, none, none, [], []⟩)
        (by decide) rfl rfl).2 (by decide) (by decide) (by decide)⟩

/-! Media-pipeline claims. -/

lemma attachmentStep_mirror_fail (net : String → Option (List Nat)) (fs : FS)
    (mid : String) (acc : MediaAcc) (a : Attachment)
    (h : (mirrorToLocal net fs a.url mid (jsOr (a.filename.getD "") "download")).ref = none)
    (hskip : ¬(a.url = "" ∨ a.url ∈ acc.seen)) :
    ∃ ty nm ct, (attachmentStep net mid (acc, fs) a).1.out
        = acc.out ++ [⟨a.url, ty, nm, ct⟩]
      ∧ (attachmentStep net mid (acc, fs) a).2 = fs := by
  have hfs := mirror_none_fs net fs a.url mid (jsOr (a.filename.getD "") "download") h
  unfold attachmentStep
  simp only [h, hfs]
  split
  · exact ⟨_, none, none, by rw [MediaAcc.add, if_neg hskip], rfl⟩
  · split
    · exact ⟨"video", none, none, by rw [MediaAcc.add, if_neg hskip], rfl⟩
    · exact ⟨"file", _, _, by rw [MediaAcc.add, if_neg hskip], rfl⟩

/-- C2: the mirror signals a network failure or non-success status as
an error (a none ref), never substituting the remote url itself and
leaving the directory untouched; and when the mirror fails for an
attachment, the feed fetcher step emits that attachment with its
original url as the media url, so the failure is absorbed and never
surfaces as an error. -/
theorem c2_mirror_error_fallback :
    (∀ (net : String → Option (List Nat)) (fs : FS) (url mid fn : String),
        FS.existsFile fs (mirrorLocalName url mid fn) = false → net url = none →
        (mirrorToLocal net fs url mid fn).ref = none
        ∧ (mirrorToLocal net fs url mid fn).fs = fs)
  ∧ (∀ (net : String → Option (List Nat)) (fs : FS) (mid : String)
        (acc : MediaAcc) (a : Attachment),
        (mirrorToLocal net fs a.url mid (jsOr (a.filename.getD "") "download")).ref = none →
        ¬(a.url = "" ∨ a.url ∈ acc.seen) →
        ∃ ty nm ct, (attachmentStep net mid (acc, fs) a).1.out
            = acc.out ++ [⟨a.url, ty, nm, ct⟩]
          ∧ (attachmentStep net mid (acc, fs) a).2 = fs) := by
  constructor
  · intro net fs url mid fn he hnet
    constructor
    · unfold mirrorToLocal
      rw [if_neg (by simp [he]), hnet]
    · unfold mirrorToLocal
      rw [if_neg (by simp [he]), hnet]
  · exact attachmentStep_mirror_fail

/-- C2 witness: a concrete attachment whose mirror fetch fails; the
step emits the original url and leaves the directory unchanged. -/
theorem c2_witness :
    (FS.existsFile ⟨[]⟩ (mirrorLocalName "http://c/x.pdf" "m7" "x.pdf") = false
      ∧ (fun _ => (none : Option (List Nat))) "http://c/x.pdf" = none
      ∧ (mirrorToLocal (fun _ => none) ⟨[]⟩ "http://c/x.pdf" "m7" "x.pdf").ref = none
      ∧ (mirrorToLocal (fun _ => none) ⟨[]⟩ "http://c/x.pdf" "m7" "x.pdf").fs = ⟨[]⟩)
    ∧ ((mirrorToLocal (fun _ => none) ⟨[]⟩
          (Attachment.mk "http://c/x.pdf" none (some "x.pdf")).url "m7"
          (jsOr ((Attachment.mk "http://c/x.pdf" none (some "x.pdf")).filename.getD "")
            "download")).ref = none
      ∧ ∃ ty nm ct,
          (attachmentStep (fun _ => none) "m7" (⟨[], []⟩, ⟨[]⟩)
              ⟨"http://c/x.pdf", none, some "x.pdf"⟩).1.out
            = (⟨[], []⟩ : MediaAcc).out ++ [⟨"http://c/x.pdf", ty, nm, ct⟩]
          ∧ (attachmentStep (fun _ => none) "m7" (⟨[], []⟩, ⟨[]⟩)
              ⟨"http://c/x.pdf", none, some "x.pdf"⟩).2 = ⟨[]⟩) := by
  refine ⟨⟨by decide, rfl, ?_, ?_⟩, by decide, ?_⟩
  · exact ((c2_mirror_error_fallback.1 (fun _ => none) ⟨[]⟩ "http://c/x.pdf" "m7" "x.pdf"
      (by decide) rfl).1)
  · exact ((c2_mirror_error_fallback.1 (fun _ => none) ⟨[]⟩ "http://c/x.pdf" "m7" "x.pdf"
      (by decide) rfl).2)
  · exact c2_mirror_error_fallback.2 (fun _ => none) ⟨[]⟩ "m7" ⟨[], []⟩
      ⟨"http://c/x.pdf", none, some "x.pdf"⟩ (by decide) (by decide)

lemma extTestL_append (exts : List (List Char)) (l₁ l₂ : List Char)
    (h : extTestL exts l₂ = true) : extTestL exts (l₁ ++ l₂) = true := by
  induction l₁ with
  | nil => simpa
  | cons c cs ih => simp [extTestL, ih]

lemma extTestL_dot (exts : List (List Char)) (e tail : List Char)
    (hg : e ∈ exts) (h : extAfter e tail = true) :
    extTestL exts ('.' :: tail) = true := by
  have hany : exts.any (fun e2 => extAfter e2 tail) = true :=
    List.any_eq_true.mpr ⟨e, hg, h⟩
  simp [extTestL, hany]

lemma extAfter_gif_query (q : List Char) :
    extAfter "gif".data ('g' :: 'i' :: 'f' :: '?' :: q) = true := by
  show extAfter ['g', 'i', 'f'] ('g' :: 'i' :: 'f' :: '?' :: q) = true
  simp [extAfter]

lemma dl_prefix_ne_empty (x : String) : "/downloads/" ++ x ≠ "" := by
  intro he
  have hd := congrArg String.data he
  rw [String.data_append] at hd
  simp at hd

/-- C6: an attachment whose original url carries a gif extension
(optionally before a query string) is classified gif and never image,
with content-type image slash gif as well as with no content-type. -/
theorem c6_gif_classification (net : String → Option (List Nat)) (fs : FS)
    (mid : String) (mty : Option Nat) (co ts : Option String)
    (a : Attachment) (b q : String)
    (hct : a.content_type = some "image/gif" ∨ a.content_type = none)
    (hurl : a.url = b ++ ".gif" ∨ a.url = b ++ ".gif?" ++ q) :
    ∃ u, (getMediaFromMessage net fs ⟨mid, mty, co, ts, [], [a]⟩).1
        = [⟨u, "gif", none, none⟩] := by
  have hdata : a.url.data = b.data ++ ('.' :: 'g' :: 'i' :: 'f' :: [])
      ∨ a.url.data = b.data ++ ('.' :: 'g' :: 'i' :: 'f' :: '?' :: q.data) := by
    rcases hurl with hurl | hurl
    · left
      rw [hurl, String.data_append]
    · right
      rw [hurl, String.data_append, String.data_append]
      simp
  have hgifL : ∀ exts, ("gif".data : List Char) ∈ exts → extTestL exts a.url.data = true := by
    intro exts hg
    rcases hdata with hd | hd
    · rw [hd]
      exact extTestL_append exts _ _ (extTestL_dot exts "gif".data _ hg (by decide))
    · rw [hd]
      exact extTestL_append exts _ _
        (extTestL_dot exts "gif".data _ hg (extAfter_gif_query q.data))
  have himg : imageExtTest a.url = true := hgifL _ (by decide)
  have hgif : gifAnchorTest a.url = true := hgifL _ (by decide)
  have hne : a.url ≠ "" := by
    intro he
    have hd := congrArg String.data he
    rcases hdata with h0 | h0 <;> rw [h0] at hd <;> simp at hd
  have hty : (if lowerStr (a.content_type.getD "") = "image/gif"
        ∨ gifAnchorTest a.url = true then "gif" else "image") = "gif" :=
    if_pos (Or.inr hgif)
  have hcond : strStartsWith "image/" (lowerStr (a.content_type.getD "")) = true
      ∨ imageExtTest a.url = true := by
    rcases hct with hc | hc
    · left
      rw [hc]
      decide
    · right
      exact himg
  have hmedia : (getMediaFromMessage net fs ⟨mid, mty, co, ts, [], [a]⟩).1
      = (attachmentStep net mid (⟨[], []⟩, fs) a).1.out := by
    unfold getMediaFromMessage
    simp only [List.foldl_cons, List.foldl_nil]
  cases hr : (mirrorToLocal net fs a.url mid (jsOr (a.filename.getD "") "download")).ref with
  | some u =>
    have hune : u ≠ "" := by
      rw [mirror_ref_shape net fs a.url mid (jsOr (a.filename.getD "") "download") u hr]
      exact dl_prefix_ne_empty _
    refine ⟨u, ?_⟩
    rw [hmedia]
    unfold attachmentStep
    simp only [hr]
    rw [if_pos hcond, hty]
    show (MediaAcc.add ⟨[], []⟩ u "gif" none none).out = _
    rw [MediaAcc.add, if_neg (by simp [hune])]
    simp
  | none =>
    refine ⟨a.url, ?_⟩
    rw [hmedia]
    unfold attachmentStep
    simp only [hr]
    rw [if_pos hcond, hty]
    show (MediaAcc.add ⟨[], []⟩ a.url "gif" none none).out = _
    rw [MediaAcc.add, if_neg (by simp [hne])]
    simp

/-- C6 witness: a concrete gif attachment without content-type whose
mirror fails, classified gif from the url extension alone. -/
theorem c6_witness :
    ((Attachment.mk "http://c/pic.gif" none (some "pic.gif")).content_type = some "image/gif"
        ∨ (Attachment.mk "http://c/pic.gif" none (some "pic.gif")).content_type = none)
    ∧ ((Attachment.mk "http://c/pic.gif" none (some "pic.gif")).url = "http://c/pic" ++ ".gif"
        ∨ (Attachment.mk "http://c/pic.gif" none (some "pic.gif")).url
            = "http://c/pic" ++ ".gif?" ++ "")
    ∧ ∃ u, (getMediaFromMessage (fun _ => none) ⟨[]⟩
          ⟨"m1", some 0, none, none, [], [⟨"http://c/pic.gif", none, some "pic.gif"⟩]⟩).1
        = [⟨u, "gif", none, none⟩] :=
  ⟨Or.inr rfl, Or.inl (by decide),
    c6_gif_classification (fun _ => none) ⟨[]⟩ "m1" (some 0) none none
      ⟨"http://c/pic.gif", none, some "pic.gif"⟩ "http://c/pic" ""
      (Or.inr rfl) (Or.inl (by decide))⟩

/-- C7: an embed with both a video url and an image url contributes
exactly one media item, the video; its image (and thumbnail) url is
never added. -/
theorem c7_embed_video_dedup (net : String → Option (List Nat)) (fs : FS)
    (mid : String) (mty : Option Nat) (co ts : Option String)
    (e : Embed) (v iu : String)
    (hv : e.video = some v) (hv0 : v ≠ "")
    (hi : e.image = some iu) (hi0 : iu ≠ "") :
    (getMediaFromMessage net fs ⟨mid, mty, co, ts, [e], []⟩).1
      = [⟨v, "video", none, none⟩] := by
  have htv : truthyS e.video = true := by
    rw [hv]
    simp [truthyS, hv0]
  show (getMediaFromMessage net fs ⟨mid, mty, co, ts, [e], []⟩).1 = _
  unfold getMediaFromMessage
  simp only [List.foldl_nil, List.foldl_cons]
  show (embedStep ⟨[], []⟩ e).out = _
  unfold embedStep
  rw [if_pos htv, hv]
  show (MediaAcc.add ⟨[], []⟩ v "video" none none).out = _
  rw [MediaAcc.add, if_neg (by simp [hv0])]
  simp

/-- C7 witness: a concrete embed carrying both a video and an image
url. -/
theorem c7_witness :
    ((Embed.mk none none (some "http://v/v.mp4") (some "http://i/i.png") none).video
        = some "http://v/v.mp4"
      ∧ ("http://v/v.mp4" : String) ≠ ""
      ∧ (Embed.mk none none (some "http://v/v.mp4") (some "http://i/i.png") none).image
          = some "http://i/i.png"
      ∧ ("http://i/i.png" : String) ≠ "")
    ∧ (getMediaFromMessage (fun _ => some [7]) ⟨[]⟩
        ⟨"m1", some 0, none, none,
          [⟨none, none, some "http://v/v.mp4", some "http://i/i.png", none⟩], []⟩).1
      = [⟨"http://v/v.mp4", "video", none, none⟩] :=
  ⟨⟨rfl, by decide, rfl, by decide⟩,
    c7_embed_video_dedup (fun _ => some [7]) ⟨[]⟩ "m1" (some 0) none none
      ⟨none, none, some "http://v/v.mp4", some "http://i/i.png", none⟩
      "http://v/v.mp4" "http://i/i.png" rfl (by decide) rfl (by decide)⟩

/-- Full sanitizer run on an escaped user mention inside context that is
free of opening angle brackets and backslashes: the escapes are undone
first, so the mention replacement then fires. -/
lemma sanitizeCore_escaped_user (P S ds : List Char)
    (hp : ∀ c ∈ P, c ≠ '<' ∧ c ≠ '\\') (hs : ∀ c ∈ S, c ≠ '<' ∧ c ≠ '\\')
    (h0 : ds ≠ []) (hds : ∀ c ∈ ds, c.isDigit = true) :
    sanitizeCore (P ++ ('\\' :: 'u' :: '0' :: '0' :: '3' :: 'c' :: '@' ::
        (ds ++ ('\\' :: 'u' :: '0' :: '0' :: '3' :: 'e' :: S))))
      = P ++ ("@user".data ++ S) := by
  unfold sanitizeCore
  rw [show ("\\u003c".data : List Char) = ['\\', 'u', '0', '0', '3', 'c'] from rfl]
  rw [show ("\\u003e".data : List Char) = ['\\', 'u', '0', '0', '3', 'e'] from rfl]
  rw [show ("<".data : List Char) = ['<'] from rfl]
  rw [show (">".data : List Char) = ['>'] from rfl]
  rw [passLt_escaped P S ds (fun c hc => (hp c hc).2) (fun c hc => (hs c hc).2) hds]
  rw [passGt_escaped P S ds (fun c hc => (hp c hc).2) (fun c hc => (hs c hc).2) hds]
  rw [passUser_token P S ds (fun c hc => (hp c hc).1) (fun c hc => (hs c hc).1) h0 hds]
  have hnl : ∀ c ∈ (P ++ ("@user".data ++ S)), c ≠ '<' := by
    intro c hc
    rcases List.mem_append.mp hc with hc | hc
    · exact (hp c hc).1
    · rcases List.mem_append.mp hc with hc | hc
      · revert hc
        have : ∀ c2 ∈ ("@user".data : List Char), c2 ≠ '<' := by decide
        exact this c
      · exact (hs c hc).1
  rw [replaceTok_id_no_lt ['@', '&'] false _ _ hnl]
  rw [replaceTok_id_no_lt ['#'] false _ _ hnl]

/-- C5: the sanitizer unescapes the angle-bracket escape sequences
first and only then rewrites mention tokens, so an escaped user mention
(digits id) sanitizes to the literal at-user text even inside benign
context; plain user (with bang), role and channel tokens rewrite to
their replacement texts; text without opening angle brackets and
backslashes passes through unchanged. -/
theorem c5_sanitize :
    (∀ (p s : String) (ds : List Char), ds ≠ [] → (∀ c ∈ ds, c.isDigit = true) →
        (∀ c ∈ p.data, c ≠ '<' ∧ c ≠ '\\') → (∀ c ∈ s.data, c ≠ '<' ∧ c ≠ '\\') →
        sanitizeContent ⟨p.data ++ ('\\' :: 'u' :: '0' :: '0' :: '3' :: 'c' :: '@' ::
            (ds ++ ('\\' :: 'u' :: '0' :: '0' :: '3' :: 'e' :: s.data)))⟩
          = ⟨p.data ++ ("@user".data ++ s.data)⟩)
  ∧ (∀ ds : List Char, ds ≠ [] → (∀ c ∈ ds, c.isDigit = true) →
        sanitizeContent ⟨'<' :: '@' :: '!' :: (ds ++ ['>'])⟩ = "@user"
      ∧ sanitizeContent ⟨'<' :: '@' :: '&' :: (ds ++ ['>'])⟩ = "@role"
      ∧ sanitizeContent ⟨'<' :: '#' :: (ds ++ ['>'])⟩ = "#channel")
  ∧ (∀ s : String, (∀ c ∈ s.data, c ≠ '<' ∧ c ≠ '\\') → sanitizeContent s = s) := by
  refine ⟨?_, ?_, ?_⟩
  · intro p s ds h0 hds hp hs
    show (⟨sanitizeCore (p.data ++ ('\\' :: 'u' :: '0' :: '0' :: '3' :: 'c' :: '@' ::
        (ds ++ ('\\' :: 'u' :: '0' :: '0' :: '3' :: 'e' :: s.data))))⟩ : String) = _
    rw [sanitizeCore_escaped_user p.data s.data ds hp hs h0 hds]
  · intro ds h0 hds
    refine ⟨?_, ?_, ?_⟩
    · show (⟨sanitizeCore ('<' :: '@' :: '!' :: (ds ++ ['>']))⟩ : String) = _
      rw [sanitize_plain_bang ds h0 hds]
    · show (⟨sanitizeCore ('<' :: '@' :: '&' :: (ds ++ ['>']))⟩ : String) = _
      rw [sanitize_plain_role ds h0 hds]
    · show (⟨sanitizeCore ('<' :: '#' :: (ds ++ ['>']))⟩ : String) = _
      rw [sanitize_plain_channel ds h0 hds]
  · intro s hbenign
    show (⟨sanitizeCore s.data⟩ : String) = s
    rw [sanitizeCore_id s.data hbenign]

/-- C5 witness: the specification test input, an escaped user mention
with the id one-two-three and empty context, sanitizes to the literal
at-user text; the plain tokens rewrite likewise. -/
theorem c5_witness :
    (("123".data : List Char) ≠ [] ∧ (∀ c ∈ ("123".data : List Char), c.isDigit = true))
    ∧ sanitizeContent ⟨("" : String).data ++ ('\\' :: 'u' :: '0' :: '0' :: '3' :: 'c' :: '@' ::
          ("123".data ++ ('\\' :: 'u' :: '0' :: '0' :: '3' :: 'e' :: ("" : String).data)))⟩
        = ⟨("" : String).data ++ ("@user".data ++ ("" : String).data)⟩
    ∧ sanitizeContent ⟨'<' :: '@' :: '!' :: ("123".data ++ ['>'])⟩ = "@user"
    ∧ sanitizeContent ⟨'<' :: '@' :: '&' :: ("123".data ++ ['>'])⟩ = "@role"
    ∧ sanitizeContent ⟨'<' :: '#' :: ("123".data ++ ['>'])⟩ = "#channel" :=
  ⟨⟨by decide, by decide⟩,
    c5_sanitize.1 "" "" "123".data (by decide) (by decide) (by decide) (by decide),
    (c5_sanitize.2.1 "123".data (by decide) (by decide)).1,
    (c5_sanitize.2.1 "123".data (by decide) (by decide)).2.1,
    (c5_sanitize.2.1 "123".data (by decide) (by decide)).2.2⟩

end Srv
